import Mathlib

/-!
Verification of the STAC catalog builder (scripts/11-build_stac_catalog.py).

The Python source is shallowly embedded: pure helpers become Lean functions,
the per-asset processing loop of build_items_and_collection becomes an
explicit state-passing fold, and fallible steps return Except.  Floating
point coordinates are modelled as rationals (the builder only compares and
takes min/max of them; the infinite sentinels of scan_lon_lat_bbox and the
NaN placeholder bbox of a fresh collection are modelled as Option.none).
Datetimes are modelled as UTC epoch integers: parse_datetime/ensure_utc
normalise every value to UTC, so an instant is just a point on one axis.
-/

set_option autoImplicit false

namespace BuildStacCatalog

/-! ### String and path helpers (Python semantics) -/

/-- Generic first-match lookup in an association list, mirroring Python
dict indexing (dict keys are unique, so first match is the only match). -/
def lookupStr {α : Type} : List (String × α) → String → Option α
  | [], _ => none
  | p :: rest, k => if p.1 = k then some p.2 else lookupStr rest k

/-- Python dict assignment `d[k] = v`: replace the value in place if the key
exists (dict keys are unique, so the first occurrence is the only one),
otherwise append the new pair (insertion order semantics). -/
def setStr {α : Type} : List (String × α) → String → α → List (String × α)
  | [], k, v => [(k, v)]
  | p :: rest, k, v => if p.1 = k then (k, v) :: rest else p :: setStr rest k v

/-- The keys of a dict, in order. -/
def dictKeys {α : Type} (d : List (String × α)) : List String := d.map Prod.fst

/-- Python `str.lower()` (ASCII case folding suffices for the builder's inputs). -/
def pyLower (s : String) : String := ⟨s.data.map Char.toLower⟩

/-- Python `str.replace(".", "-")` for the single-character pattern used by
make_item_id: replace every dot by a hyphen. -/
def pyReplaceDotDash (s : String) : String :=
  ⟨s.data.map (fun c => if c = '.' then '-' else c)⟩

/-- Python `str.endswith(suffix)`. -/
def pyEndsWith (s suf : String) : Bool := suf.data.isSuffixOf s.data

/-- Index of the last occurrence of a dot in the character list, if any. -/
def lastDotIdx (cs : List Char) : Option Nat :=
  ((List.range cs.length).filter (fun i => cs.getD i ' ' = '.')).getLast?

/-- Python `PurePosixPath(name).stem`: the name without its final extension.
The suffix is only recognised when the last dot sits strictly inside the
name (neither leading nor trailing), exactly as in CPython's pathlib. -/
def pathStem (name : String) : String :=
  let cs := name.data
  match lastDotIdx cs with
  | some i => if 0 < i ∧ i < cs.length - 1 then ⟨cs.take i⟩ else name
  | none => name

/-! ### Bounding boxes and the collection extent accumulator -/

/-- A bbox `[minx, miny, maxx, maxy]` with rational coordinates. -/
structure BBox where
  minx : ℚ
  miny : ℚ
  maxx : ℚ
  maxy : ℚ
deriving DecidableEq, Repr

/-- Componentwise union of two present bboxes (the non-None core of merge_bbox). -/
def bmerge (a b : BBox) : BBox :=
  ⟨min a.minx b.minx, min a.miny b.miny, max a.maxx b.maxx, max a.maxy b.maxy⟩

/-- merge_bbox: expand bbox `a` to include bbox `b`; None acts as identity. -/
def merge_bbox (a b : Option BBox) : Option BBox :=
  match a, b with
  | none, _ => b
  | _, none => a
  | some x, some y => some (bmerge x y)

/-- The collection extent accumulator: running bbox union (None models the
NaN placeholder installed by create_collection) and running temporal
interval endpoints (None models Python None). -/
structure CollectionExtent where
  bbox : Option BBox
  tstart : Option Int
  tend : Option Int
deriving DecidableEq, Repr

/-- A fresh accumulator: NaN placeholder bbox, [None, None] interval. -/
def fresh_extent : CollectionExtent := ⟨none, none, none⟩

/-- update_collection_extent: fold one item's bbox and start/end instants
into the accumulator.  The `existing[0] != existing[0]` NaN check of the
source corresponds to the accumulator bbox still being None. -/
def update_collection_extent (ext : CollectionExtent)
    (bbox : Option BBox) (start end_ : Option Int) : CollectionExtent :=
  let ext1 :=
    match bbox with
    | none => ext
    | some b =>
      match ext.bbox with
      | none => { ext with bbox := some b }
      | some existing => { ext with bbox := merge_bbox (some existing) (some b) }
  let ext2 :=
    match start with
    | none => ext1
    | some s =>
      match ext1.tstart with
      | none => { ext1 with tstart := some s }
      | some t0 => if s < t0 then { ext1 with tstart := some s } else ext1
  match end_ with
  | none => ext2
  | some e =>
    match ext2.tend with
    | none => { ext2 with tend := some e }
    | some t1 => if e > t1 then { ext2 with tend := some e } else ext2

/-- The temporal-start component of update_collection_extent: keep the
earlier of the accumulated start and the incoming start. -/
def tstart_step : Option Int → Option Int → Option Int
  | t, none => t
  | none, some s => some s
  | some t0, some s => if s < t0 then some s else some t0

/-- The temporal-end component of update_collection_extent: keep the later
of the accumulated end and the incoming end. -/
def tend_step : Option Int → Option Int → Option Int
  | t, none => t
  | none, some e => some e
  | some t1, some e => if e > t1 then some e else some t1

/-- Fold a sequence of per-item (bbox, start, end) triples into an extent
accumulator, as the builder's main loop does via update_collection_extent. -/
def fold_extent (init : CollectionExtent)
    (items : List (Option BBox × Option Int × Option Int)) : CollectionExtent :=
  items.foldl (fun ext it => update_collection_extent ext it.1 it.2.1 it.2.2) init

/-- Claimed result shape for C2, following the spec's words: the
coordinate-wise min/max over exactly the non-null bboxes, absent when all
are null. -/
def claimed_bbox_minmax (bs : List (Option BBox)) : Option BBox :=
  match bs.filterMap id with
  | [] => none
  | x :: xs =>
    some ⟨(xs.map BBox.minx).foldl min x.minx,
          (xs.map BBox.miny).foldl min x.miny,
          (xs.map BBox.maxx).foldl max x.maxx,
          (xs.map BBox.maxy).foldl max x.maxy⟩

/-- `outer` contains `inner` in every coordinate. -/
def bbox_contains (outer inner : BBox) : Prop :=
  outer.minx ≤ inner.minx ∧ outer.miny ≤ inner.miny ∧
  inner.maxx ≤ outer.maxx ∧ inner.maxy ≤ outer.maxy

/-! ### Partition parsing -/

/-- is_partition_segment: `"=" in segment and len(segment.split("=", 1)[0]) > 0`. -/
def is_partition_segment (segment : String) : Bool :=
  segment.data.contains '=' && decide (0 < (segment.data.takeWhile (fun c => c != '=')).length)

/-- The part of a segment before its first `=` (Python `segment.split("=", 1)[0]`). -/
def partition_key (segment : String) : String :=
  ⟨segment.data.takeWhile (fun c => c != '=')⟩

/-- The part of a segment after its first `=` (Python `segment.split("=", 1)[1]`). -/
def partition_value (segment : String) : String :=
  ⟨(segment.data.dropWhile (fun c => c != '=')).drop 1⟩

/-- parse_partitions: walk the parts of a relative path and collect the
`key=value` pairs of the segments accepted by is_partition_segment into a
dict (later occurrences of a key overwrite earlier ones, as in Python). -/
def parse_partitions (parts : List String) : List (String × String) :=
  parts.foldl
    (fun acc segment =>
      if is_partition_segment segment then
        setStr acc (partition_key segment) (partition_value segment)
      else acc)
    []

/-- Claimed extraction rule of C9, following the spec's words: a segment is
extracted exactly when it contains exactly one `=` character. -/
def claimC9_parse_partitions (parts : List String) : List (String × String) :=
  parts.foldl
    (fun acc segment =>
      if segment.data.count '=' = 1 then
        setStr acc (partition_key segment) (partition_value segment)
      else acc)
    []

/-- Amended extraction rule for C9: a segment is extracted exactly when it
contains at least one `=` and the text before the first `=` is nonempty;
the key is that text, the value is everything after the first `=`. -/
def amendedC9_parse_partitions (parts : List String) : List (String × String) :=
  (parts.filterMap
      (fun segment =>
        if segment.data.contains '=' && decide (0 < (partition_key segment).data.length) then
          some (partition_key segment, partition_value segment)
        else none)).foldl
    (fun acc kv => setStr acc kv.1 kv.2) []

/-! ### Asset records and item identity -/

/-- AssetRecord (the transient scan result): the relative path is kept as
its list of segments (the file name is the last segment), partitions as a
dict, times as UTC epoch integers. -/
structure AssetRecord where
  relative_path : List String
  partitions : List (String × String)
  bbox : Option BBox
  start : Option Int
  end_ : Option Int
  row_count : Nat
  primary_geom : Option String
deriving DecidableEq, Repr

/-- make_item_id: with the four partition coordinates present, the id is
the f-string `"{year}{month}{day}T{hour}"`; otherwise the filename stem
with dots replaced by hyphens, lower-cased. -/
def make_item_id (record : AssetRecord) : String :=
  if (["year", "month", "day", "hour"].all
        (fun k => (lookupStr record.partitions k).isSome)) then
    ((lookupStr record.partitions "year").getD "") ++
    ((lookupStr record.partitions "month").getD "") ++
    ((lookupStr record.partitions "day").getD "") ++ "T" ++
    ((lookupStr record.partitions "hour").getD "")
  else
    pyLower (pyReplaceDotDash (pathStem (record.relative_path.getLastD "")))

/-! ### JSON trees and the override merger -/

/-- A JSON value as handled by json.loads / to_dict: objects are ordered
association lists, numbers are modelled as integers (the merger never
inspects numeric values). -/
inductive Json where
  | null : Json
  | boolean : Bool → Json
  | num : Int → Json
  | str : String → Json
  | arr : List Json → Json
  | obj : List (String × Json) → Json
deriving Repr

mutual

/-- The per-key merge decision of deep_merge_dict: when the base value and
the override value are both objects the merge recurses, otherwise the
override value wins (isinstance checks of the source). -/
def deep_merge_value : Json → Json → Json
  | Json.obj bkvs, Json.obj ekvs => Json.obj (deep_merge_dict bkvs ekvs)
  | _, e => e
termination_by _ e => sizeOf e
decreasing_by
  all_goals simp_all

/-- deep_merge_dict: copy the base, then for each key of the override either
merge recursively (when the key is present in the copy and both sides hold
objects) or overwrite. -/
def deep_merge_dict : List (String × Json) → List (String × Json) → List (String × Json)
  | base, [] => base
  | base, (k, v) :: rest =>
    let base2 :=
      match lookupStr base k with
      | some bv => setStr base k (deep_merge_value bv v)
      | none => setStr base k v
    deep_merge_dict base2 rest
termination_by _ e => sizeOf e
decreasing_by
  all_goals simp_all
  all_goals omega

end

/-- The per-key result of deep_merge_dict: when both sides hold objects the
merge recurses, otherwise an override value replaces the base value, and a
key absent from the override keeps its base value. -/
def merged_value_spec : Option Json → Option Json → Option Json
  | some (Json.obj bkvs), some (Json.obj ekvs) => some (Json.obj (deep_merge_dict bkvs ekvs))
  | _, some v => some v
  | some bv, none => some bv
  | none, none => none

/-- Entries of `d.get(k, {})` when that value is an object.  (The builder
only ever reaches `.items()` on the generated item's `assets` object, which
is an object of objects; a non-mapping there would raise in Python.) -/
def objEntriesD (j : Option Json) : List (String × Json) :=
  match j with
  | some (Json.obj kvs) => kvs
  | _ => []

/-- `asset.get("href")` for a generated asset entry (an object). -/
def assetHrefOf (a : Json) : Option Json :=
  match a with
  | Json.obj kvs => lookupStr kvs "href"
  | _ => none

/-- The href-restoration loop run after the deep merge (lines 794-800 of the
source): for every originally generated asset href, if the merged document
still has that asset key but its entry lost the `href` field, write the
original href back.  Modelled for object-valued entries, the only shape the
generated documents produce. -/
def restore_step (m : List (String × Json)) (kh : String × Option Json) :
    List (String × Json) :=
  match kh.2 with
  | none => m
  | some href =>
    match lookupStr m "assets" with
    | some (Json.obj massets) =>
      match lookupStr massets kh.1 with
      | some (Json.obj a) =>
        match lookupStr a "href" with
        | some _ => m
        | none =>
          setStr m "assets"
            (Json.obj (setStr massets kh.1 (Json.obj (setStr a "href" href))))
      | _ => m
    | _ => m

def restore_asset_hrefs (merged : List (String × Json))
    (hrefs : List (String × Option Json)) : List (String × Json) :=
  hrefs.foldl restore_step merged

/-- The item-override application of build_items_and_collection: record the
generated asset hrefs, deep-merge the override document, then restore any
href the merge dropped. -/
def apply_item_overrides (base_dict item_overrides : List (String × Json)) :
    List (String × Json) :=
  let original_asset_hrefs :=
    (objEntriesD (lookupStr base_dict "assets")).map (fun p => (p.1, assetHrefOf p.2))
  let merged := deep_merge_dict base_dict item_overrides
  restore_asset_hrefs merged original_asset_hrefs

/-- The href stored for asset `key` of an item document. -/
def asset_href_at (d : List (String × Json)) (key : String) : Option Json :=
  match lookupStr d "assets" with
  | some (Json.obj kvs) =>
    match lookupStr kvs key with
    | some a => assetHrefOf a
    | none => none
  | _ => none

/-! ### Plot asset classification -/

/-- The component label map of describe_plot_asset (`.get(component, component)`). -/
def component_label (c : Char) : String :=
  if c = 'u' then "zonal (u) wind component"
  else if c = 'v' then "meridional (v) wind component"
  else String.singleton c

/-- The fixed description attached to grid_points* plots. -/
def grid_points_description : String :=
  "Scatter map generated by wind_interpolation.R that shows the interpolation mesh in " ++
  "WGS 84: interpolated nodes, original MeteoGalicia observations (drawn on top), and " ++
  "optional test points created in grid_module.R."

/-- The component-specific variogram plot descriptions. -/
def variogram_description (c : Char) (rkt : Bool) : String :=
  if rkt then
    "Empirical semivariogram of the regression-kriging residuals for the " ++
    component_label c ++ ", " ++
    "generated in regression_kriging() and saved by save_variogram_plot() " ++
    "inside scripts/modules/interpolation_module.R using terrain (topo) as external drift."
  else
    "Empirical semivariogram for the " ++ component_label c ++
    " produced during ordinary kriging calibration; " ++
    "save_variogram_plot() (scripts/modules/interpolation_module.R) overlays the model selected by cross-validation."

/-- Matching of PLOT_VARIOGRAM_RE, the anchored regular expression
`variogram_([uv])(_rkt)?_empirical_` applied to the lower-cased name:
returns the component character and whether the `_rkt` marker is present. -/
def variogram_match (name : String) : Option (Char × Bool) :=
  if "variogram_".data.isPrefixOf name.data then
    match name.data.drop 10 with
    | c :: rest =>
      if c = 'u' ∨ c = 'v' then
        if "_rkt_empirical_".data.isPrefixOf rest then some (c, true)
        else if "_empirical_".data.isPrefixOf rest then some (c, false)
        else none
      else none
    | [] => none
  else none

/-- describe_plot_asset: classify a plot filename into a description and
classification properties (in the dict insertion order of the source). -/
def describe_plot_asset (filename : String) : Option String × List (String × String) :=
  let name := pyLower filename
  if "grid_points".data.isPrefixOf name.data then
    (some grid_points_description, [("plot_type", "grid-mesh")])
  else
    match variogram_match name with
    | some (c, rkt) =>
      (some (variogram_description c rkt),
       [("plot_type", "variogram"),
        ("plot_component", String.singleton c),
        ("plot_variant", if rkt then "regression-kriging" else "ordinary-kriging")])
    | none => (none, [])

/-- The property dict of a freshly built plot item (lines 900-910): the
plot name, then the description when present, then the classification
properties. -/
def plot_item_properties (plot_filename : String) : List (String × String) :=
  let dp := describe_plot_asset plot_filename
  let props0 := [("plot_name", plot_filename)]
  let props1 :=
    match dp.1 with
    | some d => setStr props0 "plot_description" d
    | none => props0
  dp.2.foldl (fun acc kv => setStr acc kv.1 kv.2) props1

/-- A plot item is created for every copied png, matched or not: its id and
its properties. -/
def make_plot_item (item_id plot_filename : String) : String × List (String × String) :=
  (item_id ++ "-plot-" ++ pathStem plot_filename, plot_item_properties plot_filename)

/-! ### Temporal extent resolution (read_timestamp_bounds) -/

/-- A parquet file as read_timestamp_bounds sees it: named columns of
optional instants.  `none` entries model nulls and strings that fail to
parse (parse_array drops both); instants are post-parse UTC epoch values,
since parse_datetime/ensure_utc normalise everything to UTC. -/
structure TimeParquet where
  columns : List (String × List (Option Int))
deriving Repr

def TimeParquet.schema_names (pf : TimeParquet) : List String := pf.columns.map Prod.fst

def TimeParquet.colData (pf : TimeParquet) (name : String) : List (Option Int) :=
  (lookupStr pf.columns name).getD []

/-- parse_array: keep the values that are present and parseable. -/
def parse_array (arr : List (Option Int)) : List Int := arr.filterMap id

/-- Python `min` over a nonempty list (None for the empty list the source
never reaches). -/
def list_min : List Int → Option Int
  | [] => none
  | x :: xs => some (xs.foldl min x)

/-- Python `max` over a nonempty list. -/
def list_max : List Int → Option Int
  | [] => none
  | x :: xs => some (xs.foldl max x)

/-- The candidate column sets of read_timestamp_bounds, in source order:
the paired start/end columns come last. -/
def col_candidates : List (List String) :=
  [["timestamp"], ["datetime"], ["time"], ["date"], ["start_datetime", "end_datetime"]]

/-- The `for names in present` loop of read_timestamp_bounds: try each
candidate in order, returning the first one that yields values. -/
def rtb_loop (pf : TimeParquet) : List (List String) → Option Int × Option Int
  | [] => (none, none)
  | names :: rest =>
    match names with
    | [first_col, last_col] =>
      let first_values := parse_array (pf.colData first_col)
      let last_values := parse_array (pf.colData last_col)
      match list_min first_values, list_max last_values with
      | some a, some b => (some a, some b)
      | _, _ => rtb_loop pf rest
    | col :: _ =>
      let values := parse_array (pf.colData col)
      match list_min values, list_max values with
      | some a, some b => (some a, some b)
      | _, _ => rtb_loop pf rest
    | [] => rtb_loop pf rest

/-- read_timestamp_bounds: keep the candidates fully present in the schema,
then scan them in candidate order. -/
def read_timestamp_bounds (pf : TimeParquet) : Option Int × Option Int :=
  let present := col_candidates.filter
    (fun candidate => candidate.all (fun n => decide (n ∈ pf.schema_names)))
  rtb_loop pf present

/-- The candidate order claimed by C4, following the spec's words: the
paired start/end columns outrank every single column. -/
def claimC4_candidates : List (List String) :=
  [["start_datetime", "end_datetime"], ["timestamp"], ["datetime"], ["time"], ["date"]]

/-- read_timestamp_bounds as the C4 claim describes it (pair first). -/
def claimC4_read_timestamp_bounds (pf : TimeParquet) : Option Int × Option Int :=
  let present := claimC4_candidates.filter
    (fun candidate => candidate.all (fun n => decide (n ∈ pf.schema_names)))
  rtb_loop pf present

/-- A file carrying both a usable single timestamp column and a usable
start/end pair, where the two candidate orders disagree. -/
def c4_file : TimeParquet :=
  ⟨[("timestamp", [some 10]), ("start_datetime", [some 0]), ("end_datetime", [some 100])]⟩

/-! ### Fallback spatial scan (scan_lon_lat_bbox) -/

/-- A parquet file as scan_lon_lat_bbox sees it: the schema names and, per
row group, the named coordinate columns.  ℚ has no infinities, so the
`float("inf")` running sentinels of the source are modelled by an
Option accumulator that is `none` exactly while the sentinels are still
untouched — the source's final `min_lon == float("inf")` test is the
accumulator still being `none`. -/
structure SpatialParquet where
  schema_names : List String
  row_groups : List (List (String × List ℚ))
deriving Repr

def candidate_lon_cols : List String := ["lon", "longitude", "x"]
def candidate_lat_cols : List String := ["lat", "latitude", "y"]

def rg_column (rg : List (String × List ℚ)) (name : String) : List ℚ :=
  (lookupStr rg name).getD []

/-- One row-group step of scan_lon_lat_bbox: skip empty arrays, otherwise
fold the group's min/max into the running accumulator. -/
def scan_rg_step (lon_col lat_col : String) (acc : Option BBox)
    (rg : List (String × List ℚ)) : Option BBox :=
  match rg_column rg lon_col, rg_column rg lat_col with
  | [], _ => acc
  | _, [] => acc
  | x :: xs, y :: ys =>
    let lon_min := xs.foldl min x
    let lon_max := xs.foldl max x
    let lat_min := ys.foldl min y
    let lat_max := ys.foldl max y
    match acc with
    | none => some ⟨lon_min, lat_min, lon_max, lat_max⟩
    | some b => some ⟨min b.minx lon_min, min b.miny lat_min,
                      max b.maxx lon_max, max b.maxy lat_max⟩

/-- scan_lon_lat_bbox: pick the first matching lon/lat candidate columns,
then fold over the row groups; None when a column is missing or the
sentinels were never updated. -/
def scan_lon_lat_bbox (pf : SpatialParquet) : Option BBox :=
  match candidate_lon_cols.find? (fun c => decide (c ∈ pf.schema_names)),
        candidate_lat_cols.find? (fun c => decide (c ∈ pf.schema_names)) with
  | some lon_col, some lat_col => pf.row_groups.foldl (scan_rg_step lon_col lat_col) none
  | _, _ => none

/-! ### The per-asset processing loop of build_items_and_collection -/

/-- What happened to a scanned asset: skipped by the incremental check, or
fully processed. -/
inductive StepEvent where
  | skipped : String → StepEvent
  | processed : String → StepEvent
deriving DecidableEq, Repr

/-- The loop state: the known-identifier sets (which double as the item
sets of the three sub-catalogs, since the source always adds to both
together), the byte copies performed, and the per-record events. -/
structure BuildState where
  parquet_ids : List String
  metadata_ids : List String
  plot_ids : List String
  copies : List String
  events : List StepEvent
deriving DecidableEq, Repr

/-- The run configuration and the outside world: whether the incremental
flag and the sidecar prefixes are set, which byte copies succeed
(copy_from_fs returns False both for a missing source and an I/O error),
and which png files the plot directory listing yields per record. -/
structure BuildConfig where
  incremental : Bool
  metadata_enabled : Bool
  plots_enabled : Bool
  data_copy_ok : AssetRecord → Bool
  metadata_copy_ok : AssetRecord → Bool
  plot_files : AssetRecord → List String
  plot_copy_ok : AssetRecord → String → Bool

def rel_path_str (record : AssetRecord) : String :=
  String.intercalate "/" record.relative_path

def metadata_rel_str (record : AssetRecord) : String :=
  String.intercalate "/" (record.relative_path.dropLast ++ ["metadata.json"])

/-- The metadata sidecar block (lines 813-877): the id is checked against
the known set first; only then is the copy attempted, and a failed copy
silently skips the companion item. -/
def process_metadata (cfg : BuildConfig) (st : BuildState) (record : AssetRecord)
    (item_id : String) : BuildState :=
  if cfg.metadata_enabled then
    let metadata_item_id := item_id ++ "-metadata"
    if cfg.incremental ∧ metadata_item_id ∈ st.metadata_ids then st
    else if cfg.metadata_copy_ok record then
      { st with copies := st.copies ++ [metadata_rel_str record],
                metadata_ids := st.metadata_ids ++ [metadata_item_id] }
    else st
  else st

/-- One listed plot file (lines 886-966): non-png names are skipped, a
failed copy skips the plot with `continue`, and then the incremental id
check runs (in the source the copy happens before that check). -/
def plot_step (cfg : BuildConfig) (record : AssetRecord) (item_id : String)
    (st1 : BuildState) (plot_name : String) : BuildState :=
  if ¬ (pyEndsWith (pyLower plot_name) ".png") then st1
  else if ¬ cfg.plot_copy_ok record plot_name then st1
  else
    let st2 := { st1 with copies := st1.copies ++ [plot_name] }
    let plot_item_id := item_id ++ "-plot-" ++ pathStem plot_name
    if cfg.incremental ∧ plot_item_id ∈ st2.plot_ids then st2
    else { st2 with plot_ids := st2.plot_ids ++ [plot_item_id] }

/-- The plots block (lines 879-966): list the partition's plot directory
and process each entry. -/
def process_plots (cfg : BuildConfig) (st : BuildState) (record : AssetRecord)
    (item_id : String) : BuildState :=
  if cfg.plots_enabled then
    (cfg.plot_files record).foldl (plot_step cfg record item_id) st
  else st

/-- One iteration of the main `for record in records` loop: synthesize the
id; in incremental mode skip a known id before any copy or item build;
otherwise copy the parquet bytes (exiting the run on failure), register
the item, and process the metadata and plot companions. -/
def process_record (cfg : BuildConfig) (st : BuildState) (record : AssetRecord) :
    Except String BuildState :=
  let item_id := make_item_id record
  if cfg.incremental ∧ item_id ∈ st.parquet_ids then
    Except.ok { st with events := st.events ++ [StepEvent.skipped item_id] }
  else if ¬ cfg.data_copy_ok record then
    Except.error ("Failed to copy " ++ rel_path_str record ++ " into assets directory.")
  else
    let st1 := { st with
      copies := st.copies ++ [rel_path_str record],
      parquet_ids := st.parquet_ids ++ [item_id],
      events := st.events ++ [StepEvent.processed item_id] }
    let st2 := process_metadata cfg st1 record item_id
    let st3 := process_plots cfg st2 record item_id
    Except.ok st3

/-- A whole builder run over the discovered records: in incremental mode
the known-identifier sets are seeded from the previously persisted
sub-catalogs, otherwise they start empty. -/
def build_run (cfg : BuildConfig)
    (loaded_parquet loaded_metadata loaded_plots : List String)
    (records : List AssetRecord) : Except String BuildState :=
  List.foldlM (process_record cfg)
    { parquet_ids := if cfg.incremental then loaded_parquet else [],
      metadata_ids := if cfg.incremental then loaded_metadata else [],
      plot_ids := if cfg.incremental then loaded_plots else [],
      copies := [],
      events := [] } records

/-! ### Growth predicates and concrete example inputs -/

/-- The accumulator bbox grew: the new value is present and contains the
old one. -/
def bbox_grows (old : BBox) : Option BBox → Prop
  | some newBox => bbox_contains newBox old
  | none => False

/-- The accumulated interval start only moved earlier (or stayed). -/
def start_widens (old : Int) : Option Int → Prop
  | some t2 => t2 ≤ old
  | none => False

/-- The accumulated interval end only moved later (or stayed). -/
def end_widens (old : Int) : Option Int → Prop
  | some t2 => old ≤ t2
  | none => False

/-- The empty loop state a non-incremental run starts from. -/
def empty_state : BuildState :=
  { parquet_ids := [], metadata_ids := [], plot_ids := [], copies := [], events := [] }

/-- A concrete hourly-partition asset record used by the examples. -/
def sample_record : AssetRecord :=
  ⟨["year=2025", "month=01", "day=02", "hour=03", "data.parquet"],
   [("year", "2025"), ("month", "01"), ("day", "02"), ("hour", "03")],
   none, none, none, 0, none⟩

/-- An incremental run configuration where every byte copy succeeds and no
sidecar prefixes are configured. -/
def cfg_incremental_ok : BuildConfig :=
  { incremental := true, metadata_enabled := false, plots_enabled := false,
    data_copy_ok := fun _ => true, metadata_copy_ok := fun _ => true,
    plot_files := fun _ => [], plot_copy_ok := fun _ _ => true }

/-- The state a first incremental run over sample_record reaches. -/
def st_run1 : BuildState :=
  { parquet_ids := ["20250102T03"], metadata_ids := [], plot_ids := [],
    copies := ["year=2025/month=01/day=02/hour=03/data.parquet"],
    events := [StepEvent.processed "20250102T03"] }

/-- A configuration whose metadata sidecar byte copy fails (copy_from_fs
returns False) while everything else succeeds. -/
def cfg_metadata_fail : BuildConfig :=
  { incremental := false, metadata_enabled := true, plots_enabled := false,
    data_copy_ok := fun _ => true, metadata_copy_ok := fun _ => false,
    plot_files := fun _ => [], plot_copy_ok := fun _ _ => true }

/-- The state the builder reaches on sample_record under cfg_metadata_fail:
the run completes, with the data item but no metadata companion. -/
def st_metadata_fail : BuildState :=
  { parquet_ids := ["20250102T03"], metadata_ids := [], plot_ids := [],
    copies := ["year=2025/month=01/day=02/hour=03/data.parquet"],
    events := [StepEvent.processed "20250102T03"] }

/-- A configuration whose data parquet byte copy fails. -/
def cfg_data_fail : BuildConfig :=
  { incremental := false, metadata_enabled := false, plots_enabled := false,
    data_copy_ok := fun _ => false, metadata_copy_ok := fun _ => true,
    plot_files := fun _ => [], plot_copy_ok := fun _ _ => true }

/-- A configuration with one listed plot whose byte copy fails. -/
def cfg_plot_fail : BuildConfig :=
  { incremental := false, metadata_enabled := false, plots_enabled := true,
    data_copy_ok := fun _ => true, metadata_copy_ok := fun _ => true,
    plot_files := fun _ => ["variogram_u_empirical_x.png"],
    plot_copy_ok := fun _ _ => false }

/-- The four single-column candidates of read_timestamp_bounds, in their
source order; col_candidates is their singleton lists followed by the
start/end pair. -/
def single_candidates : List String := ["timestamp", "datetime", "time", "date"]

/-- A parquet file carrying only the paired start/end columns. -/
def c4_pair_file : TimeParquet :=
  ⟨[("start_datetime", [some 0, some 7]), ("end_datetime", [some 100, some 42])]⟩

/-- A parquet file where `timestamp` is present but holds no usable values,
`datetime` is usable, and a usable start/end pair is also present: the
first usable single candidate (`datetime`) must win. -/
def c4_datetime_file : TimeParquet :=
  ⟨[("timestamp", [none]), ("datetime", [some 3, some 8]),
    ("start_datetime", [some 0]), ("end_datetime", [some 9])]⟩

/-- A spatial file whose lon/lat candidate columns exist but hold zero rows. -/
def empty_spatial_file : SpatialParquet :=
  ⟨["x", "y"], [[("x", []), ("y", [])]]⟩

/-- A generated item document: one asset with an href and a media type. -/
def c7_base : List (String × Json) :=
  [("id", Json.str "20250102T03"),
   ("assets", Json.obj [("data",
      Json.obj [("href", Json.str "../../assets/parquet/data.parquet"),
                ("type", Json.str "application/vnd.apache.parquet")])])]

/-- An override that supplies another field for that asset but omits href. -/
def c7_override : List (String × Json) :=
  [("assets", Json.obj [("data", Json.obj [("title", Json.str "Winds")])])]

/-! ## Helper lemmas -/

theorem lookupStr_setStr_self {α : Type} (d : List (String × α)) (k : String) (v : α) :
    lookupStr (setStr d k v) k = some v := by
  induction d with
  | nil => simp [setStr, lookupStr]
  | cons p rest ih =>
    by_cases hp : p.1 = k
    · simp [setStr, hp, lookupStr]
    · simp [setStr, hp, lookupStr, ih]

theorem lookupStr_setStr_ne {α : Type} (d : List (String × α)) (k k2 : String) (v : α)
    (h : k2 ≠ k) : lookupStr (setStr d k v) k2 = lookupStr d k2 := by
  induction d with
  | nil =>
    simp only [setStr, lookupStr]
    rw [if_neg (fun hk => h hk.symm)]
  | cons p rest ih =>
    by_cases hp : p.1 = k
    · subst hp
      simp only [setStr, if_pos rfl, lookupStr]
      rw [if_neg (fun hk => h hk.symm), if_neg (fun hk => h hk.symm)]
    · simp only [setStr, hp, if_false, lookupStr, ih]

theorem lookupStr_eq_none_of_not_mem {α : Type} (d : List (String × α)) (k : String)
    (h : k ∉ dictKeys d) : lookupStr d k = none := by
  induction d with
  | nil => rfl
  | cons p rest ih =>
    simp only [dictKeys, List.map_cons, List.mem_cons, not_or] at h
    simp only [lookupStr]
    rw [if_neg (fun hk => h.1 hk.symm)]
    exact ih h.2

theorem update_extent_components (ext : CollectionExtent) (b : Option BBox) (s e : Option Int) :
    update_collection_extent ext b s e =
      ⟨merge_bbox ext.bbox b, tstart_step ext.tstart s, tend_step ext.tend e⟩ := by
  obtain ⟨bb, ts, te⟩ := ext
  unfold update_collection_extent
  cases b <;> cases bb <;> cases s <;> cases ts <;> cases e <;> cases te <;>
    simp only [merge_bbox, tstart_step, tend_step] <;>
    (try split_ifs) <;> (try dsimp only) <;> (try split_ifs) <;> rfl

theorem update_extent_bbox (ext : CollectionExtent) (b : Option BBox) (s e : Option Int) :
    (update_collection_extent ext b s e).bbox = merge_bbox ext.bbox b := by
  rw [update_extent_components]

theorem update_extent_tstart (ext : CollectionExtent) (b : Option BBox) (s e : Option Int) :
    (update_collection_extent ext b s e).tstart = tstart_step ext.tstart s := by
  rw [update_extent_components]

theorem update_extent_tend (ext : CollectionExtent) (b : Option BBox) (s e : Option Int) :
    (update_collection_extent ext b s e).tend = tend_step ext.tend e := by
  rw [update_extent_components]

theorem fold_extent_bbox (items : List (Option BBox × Option Int × Option Int)) :
    ∀ init : CollectionExtent,
      (fold_extent init items).bbox = (items.map Prod.fst).foldl merge_bbox init.bbox := by
  induction items with
  | nil => intro init; rfl
  | cons it rest ih =>
    intro init
    simp only [fold_extent, List.foldl_cons, List.map_cons]
    rw [show (List.foldl (fun ext it => update_collection_extent ext it.1 it.2.1 it.2.2)
          (update_collection_extent init it.1 it.2.1 it.2.2) rest)
        = fold_extent (update_collection_extent init it.1 it.2.1 it.2.2) rest from rfl]
    rw [ih, update_extent_bbox]

theorem foldl_merge_some (bs : List (Option BBox)) :
    ∀ a : BBox, bs.foldl merge_bbox (some a) = some ((bs.filterMap id).foldl bmerge a) := by
  induction bs with
  | nil => intro a; rfl
  | cons b rest ih =>
    intro a
    cases b with
    | none => simpa [merge_bbox] using ih a
    | some b2 => simpa [merge_bbox] using ih (bmerge a b2)

theorem foldl_merge_none (bs : List (Option BBox)) :
    bs.foldl merge_bbox none =
      match bs.filterMap id with
      | [] => none
      | x :: xs => some (xs.foldl bmerge x) := by
  induction bs with
  | nil => rfl
  | cons b rest ih =>
    cases b with
    | none => simpa [merge_bbox] using ih
    | some b2 => simp [merge_bbox, foldl_merge_some]

theorem foldl_bmerge_components (xs : List BBox) :
    ∀ x : BBox,
      xs.foldl bmerge x =
        ⟨(xs.map BBox.minx).foldl min x.minx, (xs.map BBox.miny).foldl min x.miny,
         (xs.map BBox.maxx).foldl max x.maxx, (xs.map BBox.maxy).foldl max x.maxy⟩ := by
  induction xs with
  | nil => intro x; rfl
  | cons y ys ih =>
    intro x
    simp only [List.foldl_cons, List.map_cons]
    rw [ih (bmerge x y)]
    rfl

/-! ## C2: the extent accumulator -/

/-- C2: folding per-item bboxes into a fresh accumulator yields exactly the
coordinate-wise min/max over the non-null bboxes (absent when all are
null), and one further update_collection_extent step can only grow the
bbox and widen the time interval. -/
theorem C2_extent_accumulator :
    (∀ items : List (Option BBox × Option Int × Option Int),
        (fold_extent fresh_extent items).bbox = claimed_bbox_minmax (items.map Prod.fst)) ∧
    (∀ (ext : CollectionExtent) (b : Option BBox) (s e : Option Int) (a : BBox),
        ext.bbox = some a →
        bbox_grows a (update_collection_extent ext b s e).bbox) ∧
    (∀ (ext : CollectionExtent) (b : Option BBox) (s e : Option Int) (t : Int),
        ext.tstart = some t →
        start_widens t (update_collection_extent ext b s e).tstart) ∧
    (∀ (ext : CollectionExtent) (b : Option BBox) (s e : Option Int) (t : Int),
        ext.tend = some t →
        end_widens t (update_collection_extent ext b s e).tend) := by
  refine ⟨?_, ?_, ?_, ?_⟩
  · intro items
    rw [fold_extent_bbox items fresh_extent]
    show (items.map Prod.fst).foldl merge_bbox none = _
    rw [foldl_merge_none]
    unfold claimed_bbox_minmax
    cases (items.map Prod.fst).filterMap id with
    | nil => rfl
    | cons x xs => simp [foldl_bmerge_components]
  · intro ext b s e a ha
    rw [update_extent_bbox, ha]
    cases b with
    | none =>
      exact ⟨le_refl _, le_refl _, le_refl _, le_refl _⟩
    | some b2 =>
      exact ⟨min_le_left _ _, min_le_left _ _, le_max_left _ _, le_max_left _ _⟩
  · intro ext b s e t ht
    rw [update_extent_tstart, ht]
    cases s with
    | none => exact le_refl t
    | some s2 =>
      by_cases hlt : s2 < t
      · simp only [tstart_step, if_pos hlt]
        exact le_of_lt hlt
      · simp only [tstart_step, if_neg hlt]
        exact le_refl t
  · intro ext b s e t ht
    rw [update_extent_tend, ht]
    cases e with
    | none => exact le_refl t
    | some e2 =>
      by_cases hgt : e2 > t
      · simp only [tend_step, if_pos hgt]
        exact le_of_lt hgt
      · simp only [tend_step, if_neg hgt]
        exact le_refl t

/-! ## C9: partition segment extraction -/

/-- C9 counterexample: the claim says only segments with exactly one `=`
are extracted, but parse_partitions extracts `a=b=c` (two `=` characters)
as key `a`, value `b=c`; the claimed rule would ignore it. -/
theorem C9_counterexample :
    parse_partitions ["a=b=c"] = [("a", "b=c")] ∧
    claimC9_parse_partitions ["a=b=c"] = [] := by
  exact ⟨rfl, rfl⟩

theorem foldl_filterMap_aux {α β γ : Type} (f : α → Option β) (g : γ → β → γ) :
    ∀ (l : List α) (init : γ),
      (l.filterMap f).foldl g init =
        l.foldl (fun acc x => match f x with | some y => g acc y | none => acc) init := by
  intro l
  induction l with
  | nil => intro init; rfl
  | cons x xs ih =>
    intro init
    cases hfx : f x <;> simp [List.filterMap_cons, hfx, ih]

/-- C9 (amended): parse_partitions extracts exactly the segments containing
at least one `=` whose text before the first `=` is nonempty, as
`(text before first =, text after first =)` pairs folded into a dict; and a
segment with no `=` at all is ignored without error. -/
theorem C9_partition_extraction :
    (∀ parts : List String, parse_partitions parts = amendedC9_parse_partitions parts) ∧
    (∀ (parts : List String) (segment : String), segment.data.contains '=' = false →
        parse_partitions (parts ++ [segment]) = parse_partitions parts) := by
  constructor
  · intro parts
    unfold amendedC9_parse_partitions
    rw [foldl_filterMap_aux]
    unfold parse_partitions
    congr 1
    funext acc segment
    have hC : is_partition_segment segment
        = (segment.data.contains '=' && decide (0 < (partition_key segment).data.length)) := rfl
    rw [hC]
    cases segment.data.contains '=' && decide (0 < (partition_key segment).data.length) with
    | true => simp
    | false => simp
  · intro parts segment h
    unfold parse_partitions
    rw [List.foldl_append]
    have hseg : is_partition_segment segment = false := by
      unfold is_partition_segment
      rw [h]
      rfl
    simp [hseg]

/-! ## C3: item identity -/

/-- C3: make_item_id concatenates the year/month/day/hour partition values
as `"{year}{month}{day}T{hour}"` when all four are present, and otherwise
lower-cases the filename stem with dots replaced by hyphens; it depends
only on the partition dict (and filename), so identical partitions with
full coordinates — or identical partitions plus identical filenames —
always receive the identical id, and the documented example path yields
`20250102T03`. -/
theorem C3_make_item_id :
    (∀ (record : AssetRecord) (y m d h : String),
        lookupStr record.partitions "year" = some y →
        lookupStr record.partitions "month" = some m →
        lookupStr record.partitions "day" = some d →
        lookupStr record.partitions "hour" = some h →
        make_item_id record = y ++ m ++ d ++ "T" ++ h) ∧
    (∀ record : AssetRecord,
        (lookupStr record.partitions "year" = none ∨
         lookupStr record.partitions "month" = none ∨
         lookupStr record.partitions "day" = none ∨
         lookupStr record.partitions "hour" = none) →
        make_item_id record =
          pyLower (pyReplaceDotDash (pathStem (record.relative_path.getLastD "")))) ∧
    (∀ r1 r2 : AssetRecord, r1.partitions = r2.partitions →
        r1.relative_path.getLastD "" = r2.relative_path.getLastD "" →
        make_item_id r1 = make_item_id r2) ∧
    make_item_id ⟨["year=2025", "month=01", "day=02", "hour=03", "data.parquet"],
        parse_partitions ["year=2025", "month=01", "day=02", "hour=03", "data.parquet"],
        none, none, none, 0, none⟩ = "20250102T03" := by
  refine ⟨?_, ?_, ?_, ?_⟩
  · intro record y m d h hy hm hd hh
    unfold make_item_id
    rw [if_pos] <;> simp [hy, hm, hd, hh]
  · intro record hmiss
    unfold make_item_id
    rw [if_neg]
    intro hall
    simp only [List.all_cons, List.all_nil, Bool.and_true, Bool.and_eq_true] at hall
    rcases hmiss with h | h | h | h <;> simp [h] at hall
  · intro r1 r2 hpart hname
    unfold make_item_id
    rw [hpart, hname]
  · rfl

/-! ## C6 / C7 helper lemmas on the deep merge -/

theorem merged_value_spec_none_right (x : Option Json) : merged_value_spec x none = x := by
  cases x with
  | none => rfl
  | some v => cases v <;> rfl

theorem deep_merge_nil (base : List (String × Json)) : deep_merge_dict base [] = base := by
  simp [deep_merge_dict]

theorem deep_merge_cons (base : List (String × Json)) (k : String) (v : Json)
    (rest : List (String × Json)) :
    deep_merge_dict base ((k, v) :: rest) =
      deep_merge_dict
        (match lookupStr base k with
         | some bv => setStr base k (deep_merge_value bv v)
         | none => setStr base k v) rest := by
  conv_lhs => rw [deep_merge_dict]

theorem lookup_deep_merge (extra : List (String × Json)) :
    ∀ base : List (String × Json), (dictKeys extra).Nodup → ∀ k : String,
      lookupStr (deep_merge_dict base extra) k
        = merged_value_spec (lookupStr base k) (lookupStr extra k) := by
  induction extra with
  | nil =>
    intro base _ k
    rw [deep_merge_nil]
    show lookupStr base k = merged_value_spec (lookupStr base k) none
    rw [merged_value_spec_none_right]
  | cons p rest ih =>
    obtain ⟨k0, v0⟩ := p
    intro base hnd k
    simp only [dictKeys, List.map_cons, List.nodup_cons] at hnd
    obtain ⟨hk0, hrest⟩ := hnd
    rw [deep_merge_cons, ih _ hrest k]
    by_cases hk : k = k0
    · subst hk
      rw [lookupStr_eq_none_of_not_mem rest k hk0, merged_value_spec_none_right]
      have hhd : lookupStr ((k, v0) :: rest) k = some v0 := by
        simp [lookupStr]
      rw [hhd]
      cases hb : lookupStr base k with
      | none => cases v0 <;> simp [merged_value_spec, hb, lookupStr_setStr_self]
      | some bv =>
        cases bv <;> cases v0 <;>
          simp [merged_value_spec, hb, lookupStr_setStr_self, deep_merge_value]
    · have hhd : lookupStr ((k0, v0) :: rest) k = lookupStr rest k := by
        simp only [lookupStr]
        rw [if_neg (fun h2 => hk h2.symm)]
      rw [hhd]
      have hb2 : lookupStr
          (match lookupStr base k0 with
           | some bv => setStr base k0 (deep_merge_value bv v0)
           | none => setStr base k0 v0) k = lookupStr base k := by
        cases hb : lookupStr base k0 with
        | none => simp only [hb]; exact lookupStr_setStr_ne _ _ _ _ hk
        | some bv => simp only [hb]; exact lookupStr_setStr_ne _ _ _ _ hk
      rw [hb2]

/-! ## C6: the deep merge -/

/-- C6: deep_merge_dict merges recursively exactly at keys where both sides
hold maps and otherwise lets the override value replace the generated
value; arrays are replaced wholesale; and the documented example merge of
properties holds. -/
theorem C6_deep_merge :
    (∀ (base extra : List (String × Json)), (dictKeys extra).Nodup → ∀ k : String,
        lookupStr (deep_merge_dict base extra) k
          = merged_value_spec (lookupStr base k) (lookupStr extra k)) ∧
    (∀ (base extra : List (String × Json)) (k : String) (xs : List Json),
        (dictKeys extra).Nodup → lookupStr extra k = some (Json.arr xs) →
        lookupStr (deep_merge_dict base extra) k = some (Json.arr xs)) ∧
    deep_merge_dict [("properties", Json.obj [("row_count", Json.num 10)])]
        [("properties", Json.obj [("x", Json.num 1)])] =
      [("properties", Json.obj [("row_count", Json.num 10), ("x", Json.num 1)])] := by
  refine ⟨fun base extra hnd k => lookup_deep_merge extra base hnd k, ?_, ?_⟩
  · intro base extra k xs hnd hx
    rw [lookup_deep_merge extra base hnd k, hx]
    cases hb : lookupStr base k with
    | none => rfl
    | some bv => cases bv <;> rfl
  · simp [deep_merge_dict, deep_merge_value, lookupStr, setStr]

theorem restore_step_preserves (m : List (String × Json)) (kh : String × Option Json)
    (key : String) (h : Json) (hm : asset_href_at m key = some h) :
    asset_href_at (restore_step m kh) key = some h := by
  obtain ⟨k2, h2⟩ := kh
  cases h2 with
  | none => exact hm
  | some href =>
    unfold asset_href_at at hm
    cases hA : lookupStr m "assets" with
    | none => rw [hA] at hm; exact absurd hm (by simp)
    | some av =>
      cases av with
      | obj massets =>
        rw [hA] at hm
        dsimp only at hm
        cases hE : lookupStr massets key with
        | none => rw [hE] at hm; exact absurd hm (by simp)
        | some aj =>
          rw [hE] at hm
          dsimp only at hm
          cases aj with
          | obj akvs =>
            simp only [assetHrefOf] at hm
            by_cases hk2 : k2 = key
            · subst hk2
              unfold restore_step
              simp only [hA, hE, hm]
              unfold asset_href_at
              rw [hA]
              dsimp only
              rw [hE]
              dsimp only
              simp only [assetHrefOf]
              exact hm
            · cases hE2 : lookupStr massets k2 with
              | none =>
                unfold restore_step
                simp only [hA, hE2]
                unfold asset_href_at
                rw [hA]
                dsimp only
                rw [hE]
                dsimp only
                simp only [assetHrefOf]
                exact hm
              | some aj2 =>
                cases aj2 with
                | obj a2 =>
                  cases hH2 : lookupStr a2 "href" with
                  | some hv =>
                    unfold restore_step
                    simp only [hA, hE2, hH2]
                    unfold asset_href_at
                    rw [hA]
                    dsimp only
                    rw [hE]
                    dsimp only
                    simp only [assetHrefOf]
                    exact hm
                  | none =>
                    unfold restore_step
                    simp only [hA, hE2, hH2]
                    unfold asset_href_at
                    rw [lookupStr_setStr_self]
                    dsimp only
                    rw [lookupStr_setStr_ne massets k2 key _ (fun he => hk2 he.symm)]
                    rw [hE]
                    dsimp only
                    simp only [assetHrefOf]
                    exact hm
                | null =>
                  unfold restore_step
                  simp only [hA, hE2]
                  unfold asset_href_at
                  rw [hA]
                  dsimp only
                  rw [hE]
                  dsimp only
                  simp only [assetHrefOf]
                  exact hm
                | boolean b2 =>
                  unfold restore_step
                  simp only [hA, hE2]
                  unfold asset_href_at
                  rw [hA]
                  dsimp only
                  rw [hE]
                  dsimp only
                  simp only [assetHrefOf]
                  exact hm
                | num n2 =>
                  unfold restore_step
                  simp only [hA, hE2]
                  unfold asset_href_at
                  rw [hA]
                  dsimp only
                  rw [hE]
                  dsimp only
                  simp only [assetHrefOf]
                  exact hm
                | str s2 =>
                  unfold restore_step
                  simp only [hA, hE2]
                  unfold asset_href_at
                  rw [hA]
                  dsimp only
                  rw [hE]
                  dsimp only
                  simp only [assetHrefOf]
                  exact hm
                | arr xs2 =>
                  unfold restore_step
                  simp only [hA, hE2]
                  unfold asset_href_at
                  rw [hA]
                  dsimp only
                  rw [hE]
                  dsimp only
                  simp only [assetHrefOf]
                  exact hm
          | null => exact absurd hm (by simp [assetHrefOf])
          | boolean b2 => exact absurd hm (by simp [assetHrefOf])
          | num n2 => exact absurd hm (by simp [assetHrefOf])
          | str s2 => exact absurd hm (by simp [assetHrefOf])
          | arr xs2 => exact absurd hm (by simp [assetHrefOf])
      | null => rw [hA] at hm; exact absurd hm (by simp)
      | boolean b2 => rw [hA] at hm; exact absurd hm (by simp)
      | num n2 => rw [hA] at hm; exact absurd hm (by simp)
      | str s2 => rw [hA] at hm; exact absurd hm (by simp)
      | arr xs2 => rw [hA] at hm; exact absurd hm (by simp)

theorem restore_preserves_href (hrefs : List (String × Option Json)) :
    ∀ (m : List (String × Json)) (key : String) (h : Json),
      asset_href_at m key = some h →
      asset_href_at (restore_asset_hrefs m hrefs) key = some h := by
  induction hrefs with
  | nil => intro m key h hm; exact hm
  | cons kh rest ih =>
    intro m key h hm
    show asset_href_at (List.foldl restore_step (restore_step m kh) rest) key = some h
    exact ih (restore_step m kh) key h (restore_step_preserves m kh key h hm)

/-! ## C7: overrides never strip an asset href -/

/-- C7: when an item override's entry for an asset key is an object that
supplies fields but omits `href`, the merged item still carries the
originally generated href for that asset. -/
theorem C7_override_keeps_href
    (base ov : List (String × Json)) (key : String)
    (bAssets bAsset oAssets oAsset : List (String × Json)) (h : Json)
    (hov : (dictKeys ov).Nodup) (hoa : (dictKeys oAssets).Nodup)
    (hoe : (dictKeys oAsset).Nodup)
    (hb1 : lookupStr base "assets" = some (Json.obj bAssets))
    (hb2 : lookupStr bAssets key = some (Json.obj bAsset))
    (hb3 : lookupStr bAsset "href" = some h)
    (ho1 : lookupStr ov "assets" = some (Json.obj oAssets))
    (ho2 : lookupStr oAssets key = some (Json.obj oAsset))
    (ho3 : lookupStr oAsset "href" = none) :
    asset_href_at (apply_item_overrides base ov) key = some h := by
  unfold apply_item_overrides
  apply restore_preserves_href
  unfold asset_href_at
  rw [lookup_deep_merge ov base hov "assets", hb1, ho1]
  simp only [merged_value_spec]
  rw [lookup_deep_merge oAssets bAssets hoa key, hb2, ho2]
  simp only [merged_value_spec, assetHrefOf]
  rw [lookup_deep_merge oAsset bAsset hoe "href", hb3, ho3,
    merged_value_spec_none_right]

/-! ## C8: plot classification -/

theorem variogram_match_not_grid (name : String) (c : Char) (rkt : Bool)
    (h : variogram_match name = some (c, rkt)) :
    "grid_points".data.isPrefixOf name.data = false := by
  unfold variogram_match at h
  by_cases hv : "variogram_".data.isPrefixOf name.data
  · by_contra hg
    have hg2 : "grid_points".data.isPrefixOf name.data = true := by
      cases hgb : "grid_points".data.isPrefixOf name.data
      · exact absurd hgb hg
      · rfl
    have hp1 : "variogram_".data <+: name.data := List.isPrefixOf_iff_prefix.mp hv
    have hp2 : "grid_points".data <+: name.data := List.isPrefixOf_iff_prefix.mp hg2
    have hle : ("variogram_".data).length ≤ ("grid_points".data).length := by decide
    have h3 : "variogram_".data <+: "grid_points".data :=
      List.prefix_of_prefix_length_le hp1 hp2 hle
    exact absurd h3 (by decide)
  · rw [if_neg hv] at h
    exact absurd h (by simp)

/-- C8: a lower-cased name matching `variogram_<component>[_rkt]_empirical_`
classifies as plot_type variogram with the component letter and the
regression-kriging / ordinary-kriging variant depending on the `_rkt`
marker and a component-specific description; the two documented examples
hold; an unmatched name gets no description and no classification
properties, yet a plot item (with its plot_name property) is still created
for every filename. -/
theorem C8_plot_classification :
    (∀ (filename : String) (c : Char) (rkt : Bool),
        variogram_match (pyLower filename) = some (c, rkt) →
        describe_plot_asset filename =
          (some (variogram_description c rkt),
           [("plot_type", "variogram"),
            ("plot_component", String.singleton c),
            ("plot_variant", if rkt then "regression-kriging" else "ordinary-kriging")])) ∧
    ((describe_plot_asset "variogram_u_rkt_empirical_foo.png").2 =
      [("plot_type", "variogram"), ("plot_component", "u"),
       ("plot_variant", "regression-kriging")]) ∧
    ((describe_plot_asset "variogram_v_empirical_bar.png").2 =
      [("plot_type", "variogram"), ("plot_component", "v"),
       ("plot_variant", "ordinary-kriging")]) ∧
    (∀ filename : String,
        "grid_points".data.isPrefixOf (pyLower filename).data = false →
        variogram_match (pyLower filename) = none →
        describe_plot_asset filename = (none, []) ∧
        plot_item_properties filename = [("plot_name", filename)]) ∧
    (∀ item_id filename : String,
        (make_plot_item item_id filename).1 = item_id ++ "-plot-" ++ pathStem filename) := by
  refine ⟨?_, rfl, rfl, ?_, fun item_id filename => rfl⟩
  · intro filename c rkt h
    have hg := variogram_match_not_grid (pyLower filename) c rkt h
    simp [describe_plot_asset, hg, h]
  · intro filename hgrid hnone
    constructor
    · simp [describe_plot_asset, hgrid, hnone]
    · simp [plot_item_properties, describe_plot_asset, hgrid, hnone]

/-! ## C4: temporal candidate order -/

/-- C4 counterexample: on a file carrying both a usable `timestamp` column
and a usable `start_datetime`/`end_datetime` pair, read_timestamp_bounds
returns the single column's bounds, not the pair's — the pair does not
outrank the single column. -/
theorem C4_counterexample :
    read_timestamp_bounds c4_file = (some 10, some 10) ∧
    claimC4_read_timestamp_bounds c4_file = (some 0, some 100) ∧
    read_timestamp_bounds c4_file ≠ claimC4_read_timestamp_bounds c4_file := by
  refine ⟨rfl, rfl, by decide⟩

theorem rtb_loop_single_skip (pf : TimeParquet) (c : String) (rest : List (List String))
    (h : parse_array (pf.colData c) = []) :
    rtb_loop pf ([c] :: rest) = rtb_loop pf rest := by
  conv_lhs => unfold rtb_loop
  dsimp only
  rw [h]
  rfl

theorem rtb_loop_single_found (pf : TimeParquet) (c : String) (rest : List (List String))
    (h : parse_array (pf.colData c) ≠ []) :
    rtb_loop pf ([c] :: rest) =
      (list_min (parse_array (pf.colData c)), list_max (parse_array (pf.colData c))) := by
  obtain ⟨x, xs, hx⟩ := List.exists_cons_of_ne_nil h
  unfold rtb_loop
  dsimp only
  rw [hx]
  dsimp only [list_min, list_max]

theorem rtb_loop_pair_found (pf : TimeParquet) (a b : String) (rest : List (List String))
    (hx : parse_array (pf.colData a) ≠ []) (hy : parse_array (pf.colData b) ≠ []) :
    rtb_loop pf ([a, b] :: rest) =
      (list_min (parse_array (pf.colData a)), list_max (parse_array (pf.colData b))) := by
  obtain ⟨x, xs, hx2⟩ := List.exists_cons_of_ne_nil hx
  obtain ⟨y, ys, hy2⟩ := List.exists_cons_of_ne_nil hy
  unfold rtb_loop
  dsimp only
  rw [hx2, hy2]
  dsimp only [list_min, list_max]

theorem rtb_singles_first (pf : TimeParquet) (tail : List (List String)) :
    ∀ (earlier : List String) (c : String) (later : List String),
      (∀ c2 ∈ earlier, ¬ (c2 ∈ pf.schema_names ∧ parse_array (pf.colData c2) ≠ [])) →
      c ∈ pf.schema_names → parse_array (pf.colData c) ≠ [] →
      rtb_loop pf ((((earlier ++ c :: later).map (fun c2 => [c2])) ++ tail).filter
          (fun candidate => candidate.all (fun n => decide (n ∈ pf.schema_names)))) =
        (list_min (parse_array (pf.colData c)), list_max (parse_array (pf.colData c))) := by
  intro earlier
  induction earlier with
  | nil =>
    intro c later _ hmem hne
    simp only [List.nil_append, List.map_cons, List.cons_append]
    rw [List.filter_cons_of_pos (by simp [hmem])]
    exact rtb_loop_single_found pf c _ hne
  | cons e erest ih =>
    intro c later hunus hmem hne
    have he := hunus e (by simp)
    simp only [List.cons_append, List.map_cons]
    by_cases hes : e ∈ pf.schema_names
    · have hee : parse_array (pf.colData e) = [] := by
        by_contra hne2
        exact he ⟨hes, hne2⟩
      rw [List.filter_cons_of_pos (by simp [hes])]
      rw [rtb_loop_single_skip pf e _ hee]
      exact ih c later (fun c2 hc2 => hunus c2 (by simp [hc2])) hmem hne
    · rw [List.filter_cons_of_neg (by simp [hes])]
      exact ih c later (fun c2 hc2 => hunus c2 (by simp [hc2])) hmem hne

theorem rtb_singles_all_skip (pf : TimeParquet) (tail : List (List String)) :
    ∀ cands : List String,
      (∀ c2 ∈ cands, ¬ (c2 ∈ pf.schema_names ∧ parse_array (pf.colData c2) ≠ [])) →
      rtb_loop pf (((cands.map (fun c2 => [c2])) ++ tail).filter
          (fun candidate => candidate.all (fun n => decide (n ∈ pf.schema_names)))) =
        rtb_loop pf (tail.filter
          (fun candidate => candidate.all (fun n => decide (n ∈ pf.schema_names)))) := by
  intro cands
  induction cands with
  | nil => intro _; rfl
  | cons e erest ih =>
    intro hunus
    have he := hunus e (by simp)
    simp only [List.cons_append, List.map_cons]
    by_cases hes : e ∈ pf.schema_names
    · have hee : parse_array (pf.colData e) = [] := by
        by_contra hne2
        exact he ⟨hes, hne2⟩
      rw [List.filter_cons_of_pos (by simp [hes])]
      rw [rtb_loop_single_skip pf e _ hee]
      exact ih (fun c2 hc2 => hunus c2 (by simp [hc2]))
    · rw [List.filter_cons_of_neg (by simp [hes])]
      exact ih (fun c2 hc2 => hunus c2 (by simp [hc2]))

/-- C4 (amended): read_timestamp_bounds tries the candidate columns in the
order timestamp, datetime, time, date, and only then the start/end pair —
the first usable single candidate (present in the schema with parseable
values) is selected, so any usable single column outranks the pair; and
only when none of the four single candidates is usable is the pair used,
returning (min of start values, max of end values). -/
theorem C4_candidate_order :
    (∀ (pf : TimeParquet) (earlier : List String) (c : String) (later : List String),
        single_candidates = earlier ++ c :: later →
        (∀ c2 ∈ earlier, ¬ (c2 ∈ pf.schema_names ∧ parse_array (pf.colData c2) ≠ [])) →
        c ∈ pf.schema_names → parse_array (pf.colData c) ≠ [] →
        read_timestamp_bounds pf =
          (list_min (parse_array (pf.colData c)),
           list_max (parse_array (pf.colData c)))) ∧
    (∀ pf : TimeParquet,
        (∀ c ∈ single_candidates,
          ¬ (c ∈ pf.schema_names ∧ parse_array (pf.colData c) ≠ [])) →
        "start_datetime" ∈ pf.schema_names → "end_datetime" ∈ pf.schema_names →
        parse_array (pf.colData "start_datetime") ≠ [] →
        parse_array (pf.colData "end_datetime") ≠ [] →
        read_timestamp_bounds pf =
          (list_min (parse_array (pf.colData "start_datetime")),
           list_max (parse_array (pf.colData "end_datetime")))) := by
  have hcands : col_candidates =
      (single_candidates.map (fun c2 => [c2])) ++ [["start_datetime", "end_datetime"]] := rfl
  constructor
  · intro pf earlier c later heq hunus hmem hne
    unfold read_timestamp_bounds
    rw [hcands, heq]
    exact rtb_singles_first pf [["start_datetime", "end_datetime"]] earlier c later
      hunus hmem hne
  · intro pf hunus hs he hxs hys
    unfold read_timestamp_bounds
    rw [hcands]
    rw [rtb_singles_all_skip pf [["start_datetime", "end_datetime"]] single_candidates hunus]
    rw [List.filter_cons_of_pos (by simp [hs, he])]
    exact rtb_loop_pair_found pf "start_datetime" "end_datetime" _ hxs hys

/-! ## C10: empty coordinate scan -/

theorem scan_fold_skip (lon_col lat_col : String) :
    ∀ (rgs : List (List (String × List ℚ))),
      (∀ rg ∈ rgs, rg_column rg lon_col = [] ∨ rg_column rg lat_col = []) →
      ∀ acc : Option BBox, rgs.foldl (scan_rg_step lon_col lat_col) acc = acc := by
  intro rgs
  induction rgs with
  | nil => intro _ acc; rfl
  | cons rg rest ih =>
    intro hall acc
    have hstep : scan_rg_step lon_col lat_col acc rg = acc := by
      unfold scan_rg_step
      rcases hall rg (by simp) with h | h
      · rw [h]
        cases rg_column rg lat_col <;> rfl
      · rw [h]
        cases rg_column rg lon_col <;> rfl
    rw [List.foldl_cons, hstep]
    exact ih (fun rg2 hrg2 => hall rg2 (by simp [hrg2])) acc

/-- C10: when matching longitude/latitude candidate columns exist but every
row group is empty, scan_lon_lat_bbox returns None (never a bbox built
from the untouched infinite sentinels), and a None bbox leaves the
collection extent accumulator's bbox untouched. -/
theorem C10_empty_scan :
    (∀ (pf : SpatialParquet) (lon_col lat_col : String),
        candidate_lon_cols.find? (fun c => decide (c ∈ pf.schema_names)) = some lon_col →
        candidate_lat_cols.find? (fun c => decide (c ∈ pf.schema_names)) = some lat_col →
        (∀ rg ∈ pf.row_groups, rg_column rg lon_col = [] ∧ rg_column rg lat_col = []) →
        scan_lon_lat_bbox pf = none) ∧
    (∀ (ext : CollectionExtent) (s e : Option Int),
        (update_collection_extent ext none s e).bbox = ext.bbox) := by
  constructor
  · intro pf lon_col lat_col hlon hlat hall
    unfold scan_lon_lat_bbox
    rw [hlon, hlat]
    exact scan_fold_skip lon_col lat_col pf.row_groups
      (fun rg hrg => Or.inl (hall rg hrg).1) none
  · intro ext s e
    rw [update_extent_bbox]
    cases hbb : ext.bbox <;> rfl

/-! ## C1 / C5 helper lemmas on the processing loop -/

theorem process_metadata_ids (cfg : BuildConfig) (st : BuildState)
    (record : AssetRecord) (item_id : String) :
    (process_metadata cfg st record item_id).parquet_ids = st.parquet_ids ∧
    (process_metadata cfg st record item_id).plot_ids = st.plot_ids ∧
    (process_metadata cfg st record item_id).events = st.events := by
  unfold process_metadata
  dsimp only
  split_ifs <;> exact ⟨rfl, rfl, rfl⟩

theorem plot_step_ids (cfg : BuildConfig) (record : AssetRecord) (item_id : String)
    (st1 : BuildState) (plot_name : String) :
    (plot_step cfg record item_id st1 plot_name).parquet_ids = st1.parquet_ids ∧
    (plot_step cfg record item_id st1 plot_name).metadata_ids = st1.metadata_ids ∧
    (plot_step cfg record item_id st1 plot_name).events = st1.events := by
  unfold plot_step
  dsimp only
  split_ifs <;> exact ⟨rfl, rfl, rfl⟩

theorem foldl_plot_step_ids (cfg : BuildConfig) (record : AssetRecord) (item_id : String)
    (l : List String) :
    ∀ st : BuildState,
      ((l.foldl (plot_step cfg record item_id) st).parquet_ids = st.parquet_ids ∧
       (l.foldl (plot_step cfg record item_id) st).metadata_ids = st.metadata_ids ∧
       (l.foldl (plot_step cfg record item_id) st).events = st.events) := by
  induction l with
  | nil => intro st; exact ⟨rfl, rfl, rfl⟩
  | cons name rest ih =>
    intro st
    obtain ⟨h1, h2, h3⟩ := ih (plot_step cfg record item_id st name)
    obtain ⟨g1, g2, g3⟩ := plot_step_ids cfg record item_id st name
    exact ⟨h1.trans g1, h2.trans g2, h3.trans g3⟩

theorem process_plots_ids (cfg : BuildConfig) (st : BuildState)
    (record : AssetRecord) (item_id : String) :
    (process_plots cfg st record item_id).parquet_ids = st.parquet_ids ∧
    (process_plots cfg st record item_id).metadata_ids = st.metadata_ids ∧
    (process_plots cfg st record item_id).events = st.events := by
  unfold process_plots
  split_ifs
  · exact foldl_plot_step_ids cfg record item_id (cfg.plot_files record) st
  · exact ⟨rfl, rfl, rfl⟩

theorem process_record_skip (cfg : BuildConfig) (st : BuildState) (record : AssetRecord)
    (h1 : cfg.incremental = true) (h2 : make_item_id record ∈ st.parquet_ids) :
    process_record cfg st record =
      Except.ok { st with events := st.events ++ [StepEvent.skipped (make_item_id record)] } := by
  unfold process_record
  rw [if_pos ⟨h1, h2⟩]

theorem process_record_fail (cfg : BuildConfig) (st : BuildState) (record : AssetRecord)
    (hns : ¬ (cfg.incremental = true ∧ make_item_id record ∈ st.parquet_ids))
    (hc : cfg.data_copy_ok record = false) :
    process_record cfg st record =
      Except.error ("Failed to copy " ++ rel_path_str record ++ " into assets directory.") := by
  unfold process_record
  rw [if_neg hns, if_pos (by simp [hc])]

theorem process_record_ok (cfg : BuildConfig) (st : BuildState) (record : AssetRecord)
    (hns : ¬ (cfg.incremental = true ∧ make_item_id record ∈ st.parquet_ids))
    (hc : cfg.data_copy_ok record = true) :
    process_record cfg st record =
      Except.ok (process_plots cfg
        (process_metadata cfg
          { st with
            copies := st.copies ++ [rel_path_str record],
            parquet_ids := st.parquet_ids ++ [make_item_id record],
            events := st.events ++ [StepEvent.processed (make_item_id record)] }
          record (make_item_id record))
        record (make_item_id record)) := by
  unfold process_record
  rw [if_neg hns, if_neg (by simp [hc])]

theorem process_record_ids (cfg : BuildConfig) (st : BuildState) (record : AssetRecord)
    (st1 : BuildState) (h : process_record cfg st record = Except.ok st1) :
    (cfg.incremental = true ∧ make_item_id record ∈ st.parquet_ids ∧
        st1.parquet_ids = st.parquet_ids) ∨
    (¬ (cfg.incremental = true ∧ make_item_id record ∈ st.parquet_ids) ∧
        st1.parquet_ids = st.parquet_ids ++ [make_item_id record]) := by
  by_cases hskip : cfg.incremental = true ∧ make_item_id record ∈ st.parquet_ids
  · left
    rw [process_record_skip cfg st record hskip.1 hskip.2] at h
    injection h with h
    exact ⟨hskip.1, hskip.2, by rw [← h]⟩
  · right
    refine ⟨hskip, ?_⟩
    cases hc : cfg.data_copy_ok record with
    | false =>
      rw [process_record_fail cfg st record hskip hc] at h
      exact absurd h (by simp)
    | true =>
      rw [process_record_ok cfg st record hskip hc] at h
      injection h with h
      rw [← h]
      rw [(process_plots_ids cfg _ record (make_item_id record)).1,
          (process_metadata_ids cfg _ record (make_item_id record)).1]

theorem run_invariant (cfg : BuildConfig) (records : List AssetRecord) :
    ∀ st st2 : BuildState,
      List.foldlM (process_record cfg) st records = Except.ok st2 →
      ((∀ s, s ∈ st.parquet_ids → s ∈ st2.parquet_ids) ∧
       (∀ r ∈ records, make_item_id r ∈ st2.parquet_ids) ∧
       (cfg.incremental = true → st.parquet_ids.Nodup → st2.parquet_ids.Nodup)) := by
  induction records with
  | nil =>
    intro st st2 h
    have h2 : st = st2 := by
      have h3 : Except.ok (ε := String) st = Except.ok st2 := h
      injection h3
    subst h2
    exact ⟨fun s hs => hs, by simp, fun _ hn => hn⟩
  | cons r rest ih =>
    intro st st2 h
    cases hp : process_record cfg st r with
    | error e =>
      have h3 : Except.error (α := BuildState) e = Except.ok st2 := by
        rw [← h]
        show _ = (process_record cfg st r >>= fun st1 => List.foldlM (process_record cfg) st1 rest)
        rw [hp]
        rfl
      exact absurd h3 (by simp)
    | ok stm =>
      have h3 : List.foldlM (process_record cfg) stm rest = Except.ok st2 := by
        rw [← h]
        show _ = (process_record cfg st r >>= fun st1 => List.foldlM (process_record cfg) st1 rest)
        rw [hp]
        rfl
      obtain ⟨ih1, ih2, ih3⟩ := ih stm st2 h3
      rcases process_record_ids cfg st r stm hp with ⟨hi, hm, hids⟩ | ⟨hns, hids⟩
      · refine ⟨fun s hs => ih1 s (by rw [hids]; exact hs), ?_, ?_⟩
        · intro r2 hr2
          rcases List.mem_cons.mp hr2 with h4 | h4
          · subst h4; exact ih1 _ (by rw [hids]; exact hm)
          · exact ih2 r2 h4
        · intro hinc hnd
          exact ih3 hinc (by rw [hids]; exact hnd)
      · refine ⟨fun s hs => ih1 s (by rw [hids]; exact List.mem_append_left _ hs), ?_, ?_⟩
        · intro r2 hr2
          rcases List.mem_cons.mp hr2 with h4 | h4
          · subst h4
            exact ih1 _ (by rw [hids]; exact List.mem_append_right _ (by simp))
          · exact ih2 r2 h4
        · intro hinc hnd
          apply ih3 hinc
          rw [hids]
          have hnotmem : make_item_id r ∉ st.parquet_ids := by
            intro hmem
            exact hns ⟨hinc, hmem⟩
          simp [List.nodup_append, hnd, hnotmem]

theorem run_all_skipped (cfg : BuildConfig) (h_inc : cfg.incremental = true)
    (records : List AssetRecord) :
    ∀ st : BuildState, (∀ r ∈ records, make_item_id r ∈ st.parquet_ids) →
      List.foldlM (process_record cfg) st records =
        Except.ok { st with events :=
          st.events ++ (records.map (fun r => StepEvent.skipped (make_item_id r))) } := by
  induction records with
  | nil =>
    intro st _
    show Except.ok st = _
    simp
  | cons r rest ih =>
    intro st hmem
    show (process_record cfg st r >>= fun st1 => List.foldlM (process_record cfg) st1 rest) = _
    rw [process_record_skip cfg st r h_inc (hmem r (by simp))]
    show List.foldlM (process_record cfg)
        { st with events := st.events ++ [StepEvent.skipped (make_item_id r)] } rest = _
    rw [ih { st with events := st.events ++ [StepEvent.skipped (make_item_id r)] }
        (fun r2 hr2 => hmem r2 (by simp [hr2]))]
    simp

/-! ## C1: incremental rerun stability -/

/-- C1: after a completed incremental run over a root, a second incremental
run over the same records, seeded with the first run's persisted item ids,
leaves the id sets of all three sub-catalogs exactly as they were (so the
set of item identifiers is unchanged and duplicate-free) and performs no
byte copy at all: every record is skipped by the known-id check before the
copy and the item/companion build. -/
theorem C1_incremental_rerun (cfg : BuildConfig) (records : List AssetRecord)
    (st1 : BuildState) (h_inc : cfg.incremental = true)
    (h1 : build_run cfg [] [] [] records = Except.ok st1) :
    build_run cfg st1.parquet_ids st1.metadata_ids st1.plot_ids records =
      Except.ok { parquet_ids := st1.parquet_ids, metadata_ids := st1.metadata_ids,
                  plot_ids := st1.plot_ids, copies := [],
                  events := records.map (fun r => StepEvent.skipped (make_item_id r)) } ∧
    st1.parquet_ids.Nodup := by
  unfold build_run at h1
  obtain ⟨hsub, hmem, hnod⟩ := run_invariant cfg records _ st1 h1
  have hnodup : st1.parquet_ids.Nodup := hnod h_inc (by simp)
  refine ⟨?_, hnodup⟩
  unfold build_run
  rw [run_all_skipped cfg h_inc records
      { parquet_ids := if cfg.incremental then st1.parquet_ids else [],
        metadata_ids := if cfg.incremental then st1.metadata_ids else [],
        plot_ids := if cfg.incremental then st1.plot_ids else [],
        copies := [], events := [] }
      (fun r hr => by simpa [h_inc] using hmem r hr)]
  simp [h_inc]

/-! ## C5: copy failure semantics -/

theorem process_metadata_copy_fail (cfg : BuildConfig) (st : BuildState)
    (record : AssetRecord) (item_id : String)
    (h : cfg.metadata_copy_ok record = false) :
    process_metadata cfg st record item_id = st := by
  unfold process_metadata
  dsimp only
  split_ifs <;> simp_all

theorem plot_step_copy_fail (cfg : BuildConfig) (record : AssetRecord) (item_id : String)
    (st1 : BuildState) (plot_name : String)
    (h : cfg.plot_copy_ok record plot_name = false) :
    plot_step cfg record item_id st1 plot_name = st1 := by
  unfold plot_step
  dsimp only
  split_ifs <;> simp_all

theorem process_plots_all_fail (cfg : BuildConfig) (st : BuildState)
    (record : AssetRecord) (item_id : String)
    (h : ∀ name, cfg.plot_copy_ok record name = false) :
    process_plots cfg st record item_id = st := by
  unfold process_plots
  split_ifs
  · have haux : ∀ (l : List String) (st0 : BuildState),
        l.foldl (plot_step cfg record item_id) st0 = st0 := by
      intro l
      induction l with
      | nil => intro st0; rfl
      | cons name rest ih =>
        intro st0
        rw [List.foldl_cons, plot_step_copy_fail cfg record item_id st0 name (h name)]
        exact ih st0
    exact haux (cfg.plot_files record) st
  · rfl

/-- C5 counterexample: a metadata sidecar whose byte copy fails does not
abort the run — the builder returns normally, merely without the metadata
companion item — contradicting the claim that any asset byte-copy failure
is fatal. -/
theorem C5_counterexample :
    cfg_metadata_fail.metadata_enabled = true ∧
    cfg_metadata_fail.metadata_copy_ok sample_record = false ∧
    build_run cfg_metadata_fail [] [] [] [sample_record] = Except.ok st_metadata_fail ∧
    st_metadata_fail.metadata_ids = [] := by
  exact ⟨rfl, rfl, rfl, rfl⟩

/-- C5 (amended): a byte-copy failure of the data parquet file aborts the
entire run fatally, while a metadata sidecar or plot byte-copy failure is
non-fatal: the record still produces its item and the run continues, only
the companion item is skipped. -/
theorem C5_copy_failure_semantics :
    (∀ (cfg : BuildConfig) (st : BuildState) (record : AssetRecord)
        (rest : List AssetRecord),
        ¬ (cfg.incremental = true ∧ make_item_id record ∈ st.parquet_ids) →
        cfg.data_copy_ok record = false →
        List.foldlM (process_record cfg) st (record :: rest) =
          Except.error ("Failed to copy " ++ rel_path_str record ++
            " into assets directory.")) ∧
    (∀ (cfg : BuildConfig) (st : BuildState) (record : AssetRecord),
        ¬ (cfg.incremental = true ∧ make_item_id record ∈ st.parquet_ids) →
        cfg.data_copy_ok record = true →
        cfg.metadata_copy_ok record = false →
        (process_record cfg st record).toOption.map BuildState.metadata_ids =
          some st.metadata_ids) ∧
    (∀ (cfg : BuildConfig) (st : BuildState) (record : AssetRecord),
        ¬ (cfg.incremental = true ∧ make_item_id record ∈ st.parquet_ids) →
        cfg.data_copy_ok record = true →
        (∀ name, cfg.plot_copy_ok record name = false) →
        (process_record cfg st record).toOption.map BuildState.plot_ids =
          some st.plot_ids) := by
  refine ⟨?_, ?_, ?_⟩
  · intro cfg st record rest hns hc
    show (process_record cfg st record >>= fun st1 =>
      List.foldlM (process_record cfg) st1 rest) = _
    rw [process_record_fail cfg st record hns hc]
    rfl
  · intro cfg st record hns hc hm
    rw [process_record_ok cfg st record hns hc]
    rw [process_metadata_copy_fail cfg _ record (make_item_id record) hm]
    show some (process_plots cfg _ record (make_item_id record)).metadata_ids = _
    rw [(process_plots_ids cfg _ record (make_item_id record)).2.1]
  · intro cfg st record hns hc hp
    rw [process_record_ok cfg st record hns hc]
    rw [process_plots_all_fail cfg _ record (make_item_id record) hp]
    show some (process_metadata cfg _ record (make_item_id record)).plot_ids = _
    rw [(process_metadata_ids cfg _ record (make_item_id record)).2.1]

/-! ## Witnesses: the hypothesised claim theorems applied at concrete inputs -/

theorem C1_incremental_rerun_witness :
    build_run cfg_incremental_ok [] [] [] [sample_record] = Except.ok st_run1 ∧
    (build_run cfg_incremental_ok st_run1.parquet_ids st_run1.metadata_ids
        st_run1.plot_ids [sample_record] =
      Except.ok { parquet_ids := st_run1.parquet_ids, metadata_ids := st_run1.metadata_ids,
                  plot_ids := st_run1.plot_ids, copies := [],
                  events := [sample_record].map
                    (fun r => StepEvent.skipped (make_item_id r)) } ∧
      st_run1.parquet_ids.Nodup) :=
  ⟨rfl, C1_incremental_rerun cfg_incremental_ok [sample_record] st_run1 rfl rfl⟩

theorem C2_extent_accumulator_witness :
    ((fold_extent fresh_extent [(some ⟨0, 0, 1, 1⟩, some 5, some 6), (none, none, none),
        (some ⟨1, 1, 2, 2⟩, some 4, some 7)]).bbox =
      claimed_bbox_minmax ([((some ⟨0, 0, 1, 1⟩ : Option BBox), (some 5 : Option Int),
        (some 6 : Option Int)), (none, none, none),
        (some ⟨1, 1, 2, 2⟩, some 4, some 7)].map Prod.fst)) ∧
    bbox_grows ⟨0, 0, 1, 1⟩
      (update_collection_extent ⟨some ⟨0, 0, 1, 1⟩, some 5, some 6⟩ (some ⟨1, 1, 2, 2⟩)
        (some 4) (some 7)).bbox ∧
    start_widens 5
      (update_collection_extent ⟨some ⟨0, 0, 1, 1⟩, some 5, some 6⟩ (some ⟨1, 1, 2, 2⟩)
        (some 4) (some 7)).tstart ∧
    end_widens 6
      (update_collection_extent ⟨some ⟨0, 0, 1, 1⟩, some 5, some 6⟩ (some ⟨1, 1, 2, 2⟩)
        (some 4) (some 7)).tend :=
  ⟨C2_extent_accumulator.1 _,
   C2_extent_accumulator.2.1 _ _ _ _ _ rfl,
   C2_extent_accumulator.2.2.1 _ _ _ _ _ rfl,
   C2_extent_accumulator.2.2.2 _ _ _ _ _ rfl⟩

theorem C3_make_item_id_witness :
    make_item_id sample_record = "2025" ++ "01" ++ "02" ++ "T" ++ "03" ∧
    make_item_id ⟨["Foo.Bar.PARQUET"], [], none, none, none, 0, none⟩ =
      pyLower (pyReplaceDotDash (pathStem
        ((["Foo.Bar.PARQUET"] : List String).getLastD ""))) ∧
    make_item_id sample_record = make_item_id sample_record :=
  ⟨C3_make_item_id.1 sample_record "2025" "01" "02" "03" rfl rfl rfl rfl,
   C3_make_item_id.2.1 ⟨["Foo.Bar.PARQUET"], [], none, none, none, 0, none⟩ (Or.inl rfl),
   C3_make_item_id.2.2.1 sample_record sample_record rfl rfl⟩

theorem C4_candidate_order_witness :
    read_timestamp_bounds c4_datetime_file =
      (list_min (parse_array (c4_datetime_file.colData "datetime")),
       list_max (parse_array (c4_datetime_file.colData "datetime"))) ∧
    read_timestamp_bounds c4_pair_file =
      (list_min (parse_array (c4_pair_file.colData "start_datetime")),
       list_max (parse_array (c4_pair_file.colData "end_datetime"))) :=
  ⟨C4_candidate_order.1 c4_datetime_file ["timestamp"] "datetime" ["time", "date"] rfl
     (by decide) (by decide) (by decide),
   C4_candidate_order.2 c4_pair_file (by decide) (by decide) (by decide)
     (by decide) (by decide)⟩

theorem C5_copy_failure_semantics_witness :
    List.foldlM (process_record cfg_data_fail) empty_state [sample_record] =
      Except.error ("Failed to copy " ++ rel_path_str sample_record ++
        " into assets directory.") ∧
    (process_record cfg_metadata_fail empty_state sample_record).toOption.map
        BuildState.metadata_ids = some empty_state.metadata_ids ∧
    (process_record cfg_plot_fail empty_state sample_record).toOption.map
        BuildState.plot_ids = some empty_state.plot_ids :=
  ⟨C5_copy_failure_semantics.1 cfg_data_fail empty_state sample_record [] (by decide) rfl,
   C5_copy_failure_semantics.2.1 cfg_metadata_fail empty_state sample_record
     (by decide) rfl rfl,
   C5_copy_failure_semantics.2.2 cfg_plot_fail empty_state sample_record
     (by decide) rfl (fun name => rfl)⟩

theorem C6_deep_merge_witness :
    lookupStr (deep_merge_dict [("properties", Json.obj [("row_count", Json.num 10)])]
        [("properties", Json.obj [("x", Json.num 1)])]) "properties" =
      merged_value_spec
        (lookupStr [("properties", Json.obj [("row_count", Json.num 10)])] "properties")
        (lookupStr [("properties", Json.obj [("x", Json.num 1)])] "properties") :=
  C6_deep_merge.1 [("properties", Json.obj [("row_count", Json.num 10)])]
    [("properties", Json.obj [("x", Json.num 1)])] (by decide) "properties"

theorem C7_override_keeps_href_witness :
    asset_href_at (apply_item_overrides c7_base c7_override) "data" =
      some (Json.str "../../assets/parquet/data.parquet") :=
  C7_override_keeps_href c7_base c7_override "data"
    [("data", Json.obj [("href", Json.str "../../assets/parquet/data.parquet"),
                        ("type", Json.str "application/vnd.apache.parquet")])]
    [("href", Json.str "../../assets/parquet/data.parquet"),
     ("type", Json.str "application/vnd.apache.parquet")]
    [("data", Json.obj [("title", Json.str "Winds")])]
    [("title", Json.str "Winds")]
    (Json.str "../../assets/parquet/data.parquet")
    (by decide) (by decide) (by decide) rfl rfl rfl rfl rfl rfl

theorem C8_plot_classification_witness :
    describe_plot_asset "variogram_v_empirical_bar.png" =
      (some (variogram_description 'v' false),
       [("plot_type", "variogram"), ("plot_component", String.singleton 'v'),
        ("plot_variant", if false then "regression-kriging" else "ordinary-kriging")]) ∧
    (describe_plot_asset "notes.png" = (none, []) ∧
     plot_item_properties "notes.png" = [("plot_name", "notes.png")]) :=
  ⟨C8_plot_classification.1 "variogram_v_empirical_bar.png" 'v' false rfl,
   C8_plot_classification.2.2.2.1 "notes.png" rfl rfl⟩

theorem C9_partition_extraction_witness :
    parse_partitions ["a=b", "data.parquet"] =
      amendedC9_parse_partitions ["a=b", "data.parquet"] ∧
    parse_partitions (["year=2025", "data.parquet"] ++ ["noeq"]) =
      parse_partitions ["year=2025", "data.parquet"] :=
  ⟨C9_partition_extraction.1 ["a=b", "data.parquet"],
   C9_partition_extraction.2 ["year=2025", "data.parquet"] "noeq" (by decide)⟩

theorem C10_empty_scan_witness :
    scan_lon_lat_bbox empty_spatial_file = none ∧
    (update_collection_extent ⟨some ⟨0, 0, 1, 1⟩, none, none⟩ none (some 1) (some 2)).bbox =
      (⟨some ⟨0, 0, 1, 1⟩, none, none⟩ : CollectionExtent).bbox :=
  ⟨C10_empty_scan.1 empty_spatial_file "x" "y" rfl rfl
     (by intro rg hrg; simp only [empty_spatial_file, List.mem_singleton] at hrg;
         subst hrg; exact ⟨rfl, rfl⟩),
   C10_empty_scan.2 ⟨some ⟨0, 0, 1, 1⟩, none, none⟩ (some 1) (some 2)⟩

end BuildStacCatalog
